import Mathlib

/-!
Verification of the tool-call bridge (`call_mcp_tool` in
`customer-support-agent-sql/customer_support_agent.py`, and its copy in
`test_mcp_integration.py`) and of the tool-governance gate
(`litellm-demo/custom_callbacks.py`, class `ToolGovernanceHandler`).

The Python values exchanged on the wire are JSON documents; we embed them as
an inductive `Json` type.  Numeric JSON literals are modelled as integers
(the repository's protocol only ever carries integer ids and row counts;
fractional literals are treated as unparsable, which no claim depends on).
`json.loads` is modelled by a fuel-bounded recursive-descent parser and
`json.dumps` by a serializer using CPython's default separators.
-/

inductive Json where
  | null
  | bool (b : Bool)
  | num (n : Int)
  | str (s : String)
  | arr (elems : List Json)
  | obj (fields : List (String × Json))
deriving Repr, Inhabited

mutual

def beqJson : Json → Json → Bool
  | .null, .null => true
  | .bool a, .bool b => a = b
  | .num a, .num b => a = b
  | .str a, .str b => a = b
  | .arr xs, .arr ys => beqJsonList xs ys
  | .obj fs, .obj gs => beqJsonFields fs gs
  | _, _ => false

def beqJsonList : List Json → List Json → Bool
  | [], [] => true
  | x :: xs, y :: ys => beqJson x y && beqJsonList xs ys
  | _, _ => false

def beqJsonFields : List (String × Json) → List (String × Json) → Bool
  | [], [] => true
  | (k, v) :: fs, (l, w) :: gs => k = l && beqJson v w && beqJsonFields fs gs
  | _, _ => false

end

theorem beqJson_correct :
    ∀ n : Nat,
      (∀ a b : Json, sizeOf a ≤ n → (beqJson a b = true ↔ a = b)) ∧
      (∀ xs ys : List Json, sizeOf xs ≤ n →
        (beqJsonList xs ys = true ↔ xs = ys)) ∧
      (∀ fs gs : List (String × Json), sizeOf fs ≤ n →
        (beqJsonFields fs gs = true ↔ fs = gs)) := by
  intro n
  induction n with
  | zero =>
    refine ⟨fun a b h => ?_, fun xs ys h => ?_, fun fs gs h => ?_⟩
    · cases a <;> simp_all
    · cases xs <;> simp_all
    · cases fs <;> simp_all
  | succ n ih =>
    obtain ⟨ihj, ihl, ihf⟩ := ih
    refine ⟨fun a b h => ?_, fun xs ys h => ?_, fun fs gs h => ?_⟩
    · cases a with
      | null => cases b <;> simp [beqJson]
      | bool x => cases b <;> simp [beqJson]
      | num x => cases b <;> simp [beqJson]
      | str x => cases b <;> simp [beqJson]
      | arr xs =>
        have hx : sizeOf xs ≤ n := by
          simp only [Json.arr.sizeOf_spec] at h; omega
        cases b
        case arr ys => simp [beqJson, ihl xs ys hx]
        all_goals simp [beqJson]
      | obj fs =>
        have hx : sizeOf fs ≤ n := by
          simp only [Json.obj.sizeOf_spec] at h; omega
        cases b
        case obj gs => simp [beqJson, ihf fs gs hx]
        all_goals simp [beqJson]
    · cases xs with
      | nil => cases ys <;> simp [beqJsonList]
      | cons x xs =>
        have h1 : sizeOf x ≤ n := by
          simp only [List.cons.sizeOf_spec] at h; omega
        have h2 : sizeOf xs ≤ n := by
          simp only [List.cons.sizeOf_spec] at h; omega
        cases ys with
        | nil => simp [beqJsonList]
        | cons y ys => simp [beqJsonList, ihj x y h1, ihl xs ys h2]
    · cases fs with
      | nil => cases gs <;> simp [beqJsonFields]
      | cons f fs =>
        obtain ⟨k, v⟩ := f
        have h1 : sizeOf v ≤ n := by
          simp only [List.cons.sizeOf_spec, Prod.mk.sizeOf_spec] at h; omega
        have h2 : sizeOf fs ≤ n := by
          simp only [List.cons.sizeOf_spec, Prod.mk.sizeOf_spec] at h; omega
        cases gs with
        | nil => simp [beqJsonFields]
        | cons g gs =>
          obtain ⟨l, w⟩ := g
          simp [beqJsonFields, ihj v w h1, ihf fs gs h2, Prod.mk.injEq]

instance : DecidableEq Json := fun a b =>
  decidable_of_iff (beqJson a b = true)
    ((beqJson_correct (sizeOf a)).1 a b le_rfl)

/-- The left-brace character, code point 123 (written via its code point, as elsewhere in this file). -/
def lbrace : Char := Char.ofNat 123

/-- The right-brace character, code point 125. -/
def rbrace : Char := Char.ofNat 125

/-- JSON whitespace, as accepted between tokens by CPython's `json.loads`. -/
def isJsonWs (c : Char) : Bool := c = ' ' || c = '\t' || c = '\n' || c = '\r'

def skipWs : List Char → List Char
  | [] => []
  | c :: cs => if isJsonWs c then skipWs cs else c :: cs

/-- Body of a JSON string literal, after the opening quote.  Supports the
single-character escapes; `\uXXXX` escapes are not modelled (no claim uses
them) and make the parse fail. -/
def parseStringBody : Nat → List Char → Option (String × List Char)
  | 0, _ => none
  | _ + 1, [] => none
  | fuel + 1, c :: cs =>
    if c = '"' then some ("", cs)
    else if c = '\\' then
      match cs with
      | [] => none
      | e :: rest =>
        let esc : Option Char :=
          if e = '"' then some '"'
          else if e = '\\' then some '\\'
          else if e = '/' then some '/'
          else if e = 'n' then some '\n'
          else if e = 't' then some '\t'
          else if e = 'r' then some '\r'
          else if e = 'b' then some (Char.ofNat 8)
          else if e = 'f' then some (Char.ofNat 12)
          else none
        match esc with
        | none => none
        | some ch =>
          match parseStringBody fuel rest with
          | none => none
          | some (s, r) => some (String.singleton ch ++ s, r)
    else if c.toNat < 32 then none
    else
      match parseStringBody fuel cs with
      | none => none
      | some (s, r) => some (String.singleton c ++ s, r)

def digitVal (c : Char) : Nat := c.toNat - 48

def parseDigits : List Char → Option (Nat × Nat × List Char)
  | [] => none
  | c :: cs =>
    if c.isDigit then
      match parseDigits cs with
      | some (v, len, rest) => some (digitVal c * 10 ^ (len) + v, len + 1, rest)
      | none => some (digitVal c, 1, c :: cs |>.tail)
    else none

/-- Integer numeric literal: optional minus, digits, no leading zeros
(matching the JSON grammar); fractional or exponent parts are unmodelled. -/
def parseIntLit (cs : List Char) : Option (Int × List Char) :=
  let core (ds : List Char) : Option (Int × List Char) :=
    match parseDigits ds with
    | none => none
    | some (v, len, rest) =>
      match ds with
      | '0' :: d :: _ => if d.isDigit then none else some ((v : Int), rest)
      | _ => if len = 0 then none else some ((v : Int), rest)
  match cs with
  | '-' :: ds =>
    match core ds with
    | some (v, rest) => some (-v, rest)
    | none => none
  | ds => core ds

/-- If a key is already present, Python's dict keeps its position and takes
the latest value; otherwise the field is appended. -/
def insertField (fs : List (String × Json)) (k : String) (v : Json) :
    List (String × Json) :=
  if fs.any (fun kv => kv.1 = k) then
    fs.map (fun kv => if kv.1 = k then (k, v) else kv)
  else fs ++ [(k, v)]

mutual

def parseValue : Nat → List Char → Option (Json × List Char)
  | 0, _ => none
  | fuel + 1, cs0 =>
    match skipWs cs0 with
    | [] => none
    | c :: rest =>
      if c = 'n' then
        match rest with
        | 'u' :: 'l' :: 'l' :: r => some (.null, r)
        | _ => none
      else if c = 't' then
        match rest with
        | 'r' :: 'u' :: 'e' :: r => some (.bool true, r)
        | _ => none
      else if c = 'f' then
        match rest with
        | 'a' :: 'l' :: 's' :: 'e' :: r => some (.bool false, r)
        | _ => none
      else if c = '"' then
        match parseStringBody (fuel + 1) rest with
        | none => none
        | some (s, r) => some (.str s, r)
      else if c = '-' || c.isDigit then
        match parseIntLit (c :: rest) with
        | none => none
        | some (v, r) => some (.num v, r)
      else if c = '[' then
        match skipWs rest with
        | ']' :: r => some (.arr [], r)
        | r => parseElems fuel r
      else if c = lbrace then
        match skipWs rest with
        | r =>
          if r.head? = some rbrace then some (.obj [], r.tail)
          else parseFields fuel [] r
      else none

def parseElems : Nat → List Char → Option (Json × List Char)
  | 0, _ => none
  | fuel + 1, cs =>
    match parseValue fuel cs with
    | none => none
    | some (v, rest) =>
      match skipWs rest with
      | ',' :: r =>
        match parseElems fuel r with
        | some (.arr vs, r') => some (.arr (v :: vs), r')
        | _ => none
      | ']' :: r => some (.arr [v], r)
      | _ => none

def parseFields : Nat → List (String × Json) → List Char →
    Option (Json × List Char)
  | 0, _, _ => none
  | fuel + 1, acc, cs =>
    match skipWs cs with
    | '"' :: r =>
      match parseStringBody (fuel + 1) r with
      | none => none
      | some (k, r1) =>
        match skipWs r1 with
        | ':' :: r2 =>
          match parseValue fuel r2 with
          | none => none
          | some (v, r3) =>
            let acc' := insertField acc k v
            match skipWs r3 with
            | ',' :: r4 => parseFields fuel acc' r4
            | r4 =>
              if r4.head? = some rbrace then some (.obj acc', r4.tail)
              else none
        | _ => none
    | _ => none

end

/-- Model of Python's `json.loads` on a complete document: the whole input
must be consumed up to trailing whitespace. -/
def json_loads (s : String) : Option Json :=
  match parseValue (s.length + 2) s.data with
  | none => none
  | some (v, rest) =>
    match skipWs rest with
    | [] => some v
    | _ => none

/-! ### Serialization (`json.dumps` with CPython's default separators) -/

def hexDigit (n : Nat) : Char :=
  if n < 10 then Char.ofNat (48 + n) else Char.ofNat (87 + n)

/-- CPython's `json.dumps` escapes `"`, `\`, the named control characters,
and all other code points below 32 as `\u00XX`; other characters (including
non-ASCII, under `ensure_ascii=False`-style output of the code points we
care about) pass through.  The repository only ever serializes ASCII
payload strings, so the `ensure_ascii` distinction is immaterial here. -/
def escapeChar (c : Char) : String :=
  if c = '"' then "\\\""
  else if c = '\\' then "\\\\"
  else if c = '\n' then "\\n"
  else if c = '\t' then "\\t"
  else if c = '\r' then "\\r"
  else if c = Char.ofNat 8 then "\\b"
  else if c = Char.ofNat 12 then "\\f"
  else if c.toNat < 32 then
    "\\u00" ++ String.singleton (hexDigit (c.toNat / 16)) ++
      String.singleton (hexDigit (c.toNat % 16))
  else String.singleton c

def escapeList : List Char → String
  | [] => ""
  | c :: cs => escapeChar c ++ escapeList cs

def dumpString (s : String) : String := "\"" ++ escapeList s.data ++ "\""

def natDigits : Nat → Nat → String
  | 0, _ => ""
  | fuel + 1, n =>
    if n < 10 then String.singleton (Char.ofNat (48 + n))
    else natDigits fuel (n / 10) ++ String.singleton (Char.ofNat (48 + n % 10))

def intRepr (n : Int) : String :=
  if n < 0 then "-" ++ natDigits (n.natAbs + 1) n.natAbs
  else natDigits (n.natAbs + 1) n.natAbs

mutual

def json_dumps : Json → String
  | .null => "null"
  | .bool true => "true"
  | .bool false => "false"
  | .num n => intRepr n
  | .str s => dumpString s
  | .arr xs => "[" ++ dumpsElems xs ++ "]"
  | .obj fs => String.singleton lbrace ++ dumpsFields fs ++ String.singleton rbrace

def dumpsElems : List Json → String
  | [] => ""
  | [x] => json_dumps x
  | x :: y :: xs => json_dumps x ++ ", " ++ dumpsElems (y :: xs)

def dumpsFields : List (String × Json) → String
  | [] => ""
  | [(k, v)] => dumpString k ++ ": " ++ json_dumps v
  | (k, v) :: f :: fs => dumpString k ++ ": " ++ json_dumps v ++ ", " ++ dumpsFields (f :: fs)

end

/-! ### Python dynamic semantics needed by the scan loop

`call_mcp_tool` applies Python operators to values decoded from JSON lines:
`"result" in response`, `response["result"]`, `len(...)`, `[0]`,
`.get("text", "\x7b\x7d")`, and (in the test copy) truthiness and `[:2]`
slicing.  These operators are total only on some types and raise
`TypeError` / `AttributeError` / `KeyError` otherwise; we model them as
`Except PyExn` computations, with the exception text mirroring CPython. -/

inductive PyExn where
  | typeError (msg : String)
  | attributeError (msg : String)
  | keyError (msg : String)
deriving Repr, DecidableEq

/-- Result of `str(e)` on a caught exception, as interpolated into the error message. -/
def pyExnStr : PyExn → String
  | .typeError m => m
  | .attributeError m => m
  | .keyError m => m

def pyTypeName : Json → String
  | .null => "NoneType"
  | .bool _ => "bool"
  | .num _ => "int"
  | .str _ => "str"
  | .arr _ => "list"
  | .obj _ => "dict"

def listIsPrefixOf : List Char → List Char → Bool
  | [], _ => true
  | _ :: _, [] => false
  | p :: ps, c :: cs => p = c && listIsPrefixOf ps cs

def containsAux (pat : List Char) : List Char → Bool
  | [] => listIsPrefixOf pat []
  | c :: cs => listIsPrefixOf pat (c :: cs) || containsAux pat cs

/-- Substring test (Python `pat in s` for strings). -/
def strContains (s pat : String) : Bool := containsAux pat.data s.data

/-- Association-list lookup on a JSON object's fields (first match; parsed
objects have unique keys by construction). -/
def pyLookup (fs : List (String × Json)) (k : String) : Option Json :=
  (fs.find? (fun kv => kv.1 = k)).map (fun kv => kv.2)

/-- Python `key in v` for a string key: dict key test, list membership,
substring test on strings; `TypeError` on the remaining types. -/
def pyContains (k : String) (v : Json) : Except PyExn Bool :=
  match v with
  | .obj fs => .ok (pyLookup fs k).isSome
  | .arr xs => .ok (xs.contains (.str k))
  | .str s => .ok (strContains s k)
  | v => .error (.typeError
      ("argument of type \x27" ++ pyTypeName v ++ "\x27 is not iterable"))

/-- Python `v[k]` for a string key `k`. -/
def pyIndexStr (v : Json) (k : String) : Except PyExn Json :=
  match v with
  | .obj fs =>
    match pyLookup fs k with
    | some w => .ok w
    | none => .error (.keyError ("\x27" ++ k ++ "\x27"))
  | .arr _ => .error (.typeError "list indices must be integers or slices, not str")
  | .str _ => .error (.typeError "string indices must be integers")
  | v => .error (.typeError
      ("\x27" ++ pyTypeName v ++ "\x27 object is not subscriptable"))

/-- Python `len(v)`. -/
def pyLen (v : Json) : Except PyExn Nat :=
  match v with
  | .arr xs => .ok xs.length
  | .str s => .ok s.length
  | .obj fs => .ok fs.length
  | v => .error (.typeError
      ("object of type \x27" ++ pyTypeName v ++ "\x27 has no len()"))

/-- Python `v[0]`. -/
def pyIndexZero (v : Json) : Except PyExn Json :=
  match v with
  | .arr xs =>
    match xs with
    | [] => .error (.keyError "list index out of range")
    | x :: _ => .ok x
  | .str s =>
    match s.data with
    | [] => .error (.keyError "string index out of range")
    | c :: _ => .ok (.str (String.singleton c))
  | .obj _ => .error (.keyError "0")
  | v => .error (.typeError
      ("\x27" ++ pyTypeName v ++ "\x27 object is not subscriptable"))

/-- Python `v.get(k, default)`: only dicts have `.get`. -/
def pyGet (v : Json) (k : String) (dflt : Json) : Except PyExn Json :=
  match v with
  | .obj fs =>
    match pyLookup fs k with
    | some w => .ok w
    | none => .ok dflt
  | v => .error (.attributeError
      ("\x27" ++ pyTypeName v ++ "\x27 object has no attribute \x27get\x27"))

/-- Python truthiness of a JSON value. -/
def pyTruthy : Json → Bool
  | .null => false
  | .bool b => b
  | .num n => n ≠ 0
  | .str s => s ≠ ""
  | .arr xs => xs ≠ []
  | .obj fs => fs ≠ []

/-- Python `v[:2]` (used by the test copy's diagnostic printing). -/
def pySliceTwo (v : Json) : Except PyExn Json :=
  match v with
  | .arr xs => .ok (.arr (xs.take 2))
  | .str s => .ok (.str (String.mk (s.data.take 2)))
  | .obj _ => .error (.typeError "unhashable type: \x27slice\x27")
  | v => .error (.typeError
      ("\x27" ++ pyTypeName v ++ "\x27 object is not subscriptable"))

/-- Python whitespace stripped by `str.strip()`. -/
def isPyWs (c : Char) : Bool :=
  c = ' ' || c = '\t' || c = '\n' || c = '\r' ||
  c = Char.ofNat 11 || c = Char.ofNat 12

def pyStrip (s : String) : String :=
  String.mk (((s.data.dropWhile isPyWs).reverse.dropWhile isPyWs).reverse)

def splitNlAux : List Char → List Char → List String
  | [], acc => [String.mk acc.reverse]
  | c :: cs, acc =>
    if c = '\n' then String.mk acc.reverse :: splitNlAux cs []
    else splitNlAux cs (c :: acc)

/-- Python `s.split("\n")` (in particular `"".split("\n") = [""]`). -/
def pySplitNl (s : String) : List String := splitNlAux s.data []

/-! ### The response-scan loop of `call_mcp_tool`

```
lines = stdout.strip().split("\n")
for line in lines:
    try:
        response = json.loads(line)
        if "result" in response:
            if "content" in response["result"] and len(response["result"]["content"]) > 0:
                content_text = response["result"]["content"][0].get("text", "\x7b\x7d")
                return json.loads(content_text)
            return response["result"]
    except json.JSONDecodeError:
        continue
```

`processLineCore` is the body of the loop for one line, shared verbatim by
the two source copies; they differ only at the point where the inner
document has just been decoded (the test copy prints diagnostics there,
see `testInnerWrap`). -/

inductive CoreOut where
  /-- Parsing (`json.loads`) failed on this line (or on the inner text):
  `json.JSONDecodeError` is caught and the loop continues. -/
  | next
  /-- The statement `return response["result"]` fired (no `content`, or empty `content`). -/
  | retResult (v : Json)
  /-- The statement `return json.loads(content_text)` is about to fire with decoded `d`. -/
  | retDecoded (d : Json)
  /-- An exception other than `json.JSONDecodeError` escaped the loop body;
  it is caught by the outer `except Exception` handler. -/
  | exn (e : PyExn)
deriving Repr, DecidableEq

def processLineCore (line : String) : CoreOut :=
  match json_loads line with
  | none => .next
  | some response =>
    match pyContains "result" response with
    | .error e => .exn e
    | .ok false => .next
    | .ok true =>
      match pyIndexStr response "result" with
      | .error e => .exn e
      | .ok result =>
        match pyContains "content" result with
        | .error e => .exn e
        | .ok false => .retResult result
        | .ok true =>
          match pyIndexStr result "content" with
          | .error e => .exn e
          | .ok content =>
            match pyLen content with
            | .error e => .exn e
            | .ok 0 => .retResult result
            | .ok (_ + 1) =>
              match pyIndexZero content with
              | .error e => .exn e
              | .ok elem =>
                match pyGet elem "text" (.str "\x7b\x7d") with
                | .error e => .exn e
                | .ok tv =>
                  match tv with
                  | .str t =>
                    match json_loads t with
                    | none => .next
                    | some d => .retDecoded d
                  | tv => .exn (.typeError
                      ("the JSON object must be str, bytes or bytearray, not "
                        ++ pyTypeName tv))

inductive LineResult where
  | ret (v : Json)
  | next
  | exn (e : PyExn)
deriving Repr, DecidableEq

/-- One loop iteration of the agent copy
(`customer_support_agent.py`): the decoded inner document is returned
directly. -/
def processLine (line : String) : LineResult :=
  match processLineCore line with
  | .next => .next
  | .retResult v => .ret v
  | .retDecoded d => .ret d
  | .exn e => .exn e

/-- The test copy (`test_mcp_integration.py`) prints diagnostics between
decoding the inner document and returning it:
`result.get("success")`, `result.get("message", "N/A")`, and — when
`result.get("data")` is truthy — `json.dumps(result["data"][:2], indent=2)`.
On a non-dict inner document `.get` raises `AttributeError`; on a truthy
non-sliceable `data` the slice raises `TypeError`; both land in the outer
exception handler. -/
def testInnerWrap (d : Json) : LineResult :=
  match d with
  | .obj fs =>
    let dv := match pyLookup fs "data" with
      | some v => v
      | none => Json.null
    if pyTruthy dv then
      match pySliceTwo dv with
      | .ok _ => .ret (.obj fs)
      | .error e => .exn e
    else .ret (.obj fs)
  | d => .exn (.attributeError
      ("\x27" ++ pyTypeName d ++ "\x27 object has no attribute \x27get\x27"))

/-- One loop iteration of the test copy. -/
def processLineTest (line : String) : LineResult :=
  match processLineCore line with
  | .next => .next
  | .retResult v => .ret v
  | .retDecoded d => testInnerWrap d
  | .exn e => .exn e

inductive ScanOut where
  | returned (v : Json)
  /-- The loop ran off the end of the lines without returning. -/
  | fell
  | raised (e : PyExn)
deriving Repr, DecidableEq

def scanLines (step : String → LineResult) : List String → ScanOut
  | [] => .fell
  | l :: ls =>
    match step l with
    | .ret v => .returned v
    | .exn e => .raised e
    | .next => scanLines step ls

/-! ### `call_mcp_tool` itself

The subprocess exchange (`subprocess.Popen` + `communicate`) is external to
the program; we embed its observable outcome as a parameter:

  * `timeout`  — `communicate` raised `subprocess.TimeoutExpired`;
  * `exnFailure desc` — some other exception with `str(e) = desc` was raised
    by the exchange (spawn failure, broken pipe, ...);
  * `completed stdout stderr` — the process exited and produced the given
    captured output texts.

The function returns the dictionary the Python function returns, plus a
flag recording whether `process.kill()` was executed (the timeout handler
is the only site that calls it; on the `completed` path the process has
already exited when `communicate` returns). -/

inductive ExchangeOutcome where
  | timeout
  | exnFailure (desc : String)
  | completed (stdout : String) (stderr : String)
deriving Repr, DecidableEq

structure BridgeResult where
  response : Json
  processKilled : Bool
deriving Repr, DecidableEq

/-- The dictionary `\x7b"success": False, "message": msg\x7d`. -/
def errResult (msg : String) : Json :=
  .obj [("success", .bool false), ("message", .str msg)]

/-- The `if stdout:` block plus the fall-through return and the outer
exception handler, for a given per-line step function. -/
def runCompleted (step : String → LineResult) (stdout : String) : Json :=
  if stdout = "" then errResult "No valid response from MCP server"
  else
    match scanLines step (pySplitNl (pyStrip stdout)) with
    | .returned v => v
    | .fell => errResult "No valid response from MCP server"
    | .raised e => errResult ("Error calling MCP server: " ++ pyExnStr e)

/-- The JSON-RPC request envelope built by both copies:
`\x7b"jsonrpc": "2.0", "id": 1, "method": "tools/call",
"params": \x7b"name": tool_name, "arguments": arguments\x7d\x7d`. -/
def buildRequest (tool_name : String) (arguments : List (String × Json)) : Json :=
  .obj [("jsonrpc", .str "2.0"), ("id", .num 1), ("method", .str "tools/call"),
        ("params", .obj [("name", .str tool_name), ("arguments", .obj arguments)])]

/-- The text `json.dumps(request) + "\n"` written in full to the subprocess
standard input (its stdin is then closed by `communicate`). -/
def writtenInput (tool_name : String) (arguments : List (String × Json)) : String :=
  json_dumps (buildRequest tool_name arguments) ++ "\n"

/-- Function `call_mcp_tool` from `customer_support_agent.py` (lines 28-97). -/
def call_mcp_tool (tool_name : String) (arguments : List (String × Json))
    (outcome : ExchangeOutcome) : BridgeResult :=
  match tool_name, arguments, outcome with
  | _, _, .timeout => ⟨errResult "MCP server call timed out", true⟩
  | _, _, .exnFailure desc =>
      ⟨errResult ("Error calling MCP server: " ++ desc), false⟩
  | _, _, .completed stdout _ => ⟨runCompleted processLine stdout, false⟩

/-- The request envelope as built by the test copy
(`test_mcp_integration.py`, lines 47-55) — textually identical fields. -/
def test_buildRequest (tool_name : String) (arguments : List (String × Json)) : Json :=
  .obj [("jsonrpc", .str "2.0"), ("id", .num 1), ("method", .str "tools/call"),
        ("params", .obj [("name", .str tool_name), ("arguments", .obj arguments)])]

def test_writtenInput (tool_name : String) (arguments : List (String × Json)) : String :=
  json_dumps (test_buildRequest tool_name arguments) ++ "\n"

/-- Function `call_mcp_tool` from `test_mcp_integration.py` (lines 26-103): same
protocol, but each line's content branch runs the diagnostic prints of
`testInnerWrap` before returning. -/
def call_mcp_tool_test (tool_name : String) (arguments : List (String × Json))
    (outcome : ExchangeOutcome) : BridgeResult :=
  match tool_name, arguments, outcome with
  | _, _, .timeout => ⟨errResult "MCP server call timed out", true⟩
  | _, _, .exnFailure desc =>
      ⟨errResult ("Error calling MCP server: " ++ desc), false⟩
  | _, _, .completed stdout _ => ⟨runCompleted processLineTest stdout, false⟩

/-! ### The tool governance gate (`litellm-demo/custom_callbacks.py`)

`ToolGovernanceHandler` holds two static policy tables and a mutable
`blocked_attempts` list.  A model response is embedded structurally:
`choices[0].message.tool_calls` with each tool call carrying a `type` tag
and `function.name`.  Python attributes that may be absent
(`message`) are `Option`s; a `tool_calls` attribute that is absent or
`None` iterates zero times exactly like `[]`, so it is embedded as a
plain list. -/

structure ToolCall where
  type : String
  name : String
deriving Repr, DecidableEq

structure Message where
  tool_calls : List ToolCall
deriving Repr, DecidableEq

structure Choice where
  message : Option Message
deriving Repr, DecidableEq

structure ModelResponse where
  choices : List Choice
deriving Repr, DecidableEq

/-- Table `UNAUTHORIZED_TOOLS`: denylist mapping tool name to rejection reason. -/
def UNAUTHORIZED_TOOLS : List (String × String) :=
  [("refund_order",
    "Refund operations require human approval. Please escalate to a supervisor."),
   ("delete_customer_data", "Data deletion requires compliance review."),
   ("update_pricing", "Pricing changes require manager approval.")]

/-- Table `AUTHORIZED_TOOLS`: allowlist (documentation/audit only; the code never
consults it when deciding). -/
def AUTHORIZED_TOOLS : List String :=
  ["get_order_status", "search_knowledge_base", "get_customer_info",
   "create_support_ticket"]

def lookupDenied (name : String) : Option String :=
  (UNAUTHORIZED_TOOLS.find? (fun kv => kv.1 = name)).map (fun kv => kv.2)

/-- Method `_extract_tool_calls` (lines 35-56).  The first pass indexes
`response.choices[0]` without a length guard, so an empty `choices` list
raises `IndexError`; the second pass re-reads `choices[0]` (guarded) and
appends only tool calls whose `type == "function"`. -/
def extract_tool_calls (r : ModelResponse) : Except String (List String) :=
  match r.choices with
  | [] => .error "list index out of range"
  | c :: _ =>
    let pass1 := match c.message with
      | some m => m.tool_calls.map ToolCall.name
      | none => []
    let pass2 := match c.message with
      | some m => (m.tool_calls.filter (fun tc => tc.type = "function")).map ToolCall.name
      | none => []
    .ok (pass1 ++ pass2)

/-- The f-string `"🚫 Access Denied: Tool '\x7btool_name\x7d' is not
authorized. \x7breason\x7d"`. -/
def denialMsg (tool_name reason : String) : String :=
  "🚫 Access Denied: Tool \x27" ++ tool_name ++ "\x27 is not authorized. " ++ reason

/-- Method `_validate_tools` (lines 58-64): first denylisted name wins. -/
def validate_tools : List String → Option String
  | [] => none
  | n :: rest =>
    match lookupDenied n with
    | some reason => some (denialMsg n reason)
    | none => validate_tools rest

/-- The name of the first denylisted tool in the list, if any. -/
def firstDenied : List String → Option String
  | [] => none
  | n :: rest => if (lookupDenied n).isSome then some n else firstDenied rest

/-- The handler's mutable state: `self.blocked_attempts`, a list of
`\x7b"tools": [...], "reason": ...\x7d` records. -/
structure GovState where
  blocked_attempts : List (List String × String)
deriving Repr, DecidableEq

/-- Observable outcome of `async_post_call_success_hook`. -/
inductive HookResult where
  /-- The hook returned normally (response released downstream). -/
  | passed
  /-- The statement `raise HTTPException(status_code=403, detail=error)` ran. -/
  | blocked (status : Nat) (detail : String)
  /-- Extraction raised `IndexError` (empty `choices`); nothing is caught
  inside the hook, so the exception propagates. -/
  | extractionError (msg : String)
deriving Repr, DecidableEq

/-- Method `async_post_call_success_hook` (lines 66-101). -/
def post_call_success_hook (st : GovState) (r : ModelResponse) :
    HookResult × GovState :=
  match extract_tool_calls r with
  | .error e => (.extractionError e, st)
  | .ok tool_calls_in_response =>
    if tool_calls_in_response ≠ [] then
      match validate_tools tool_calls_in_response with
      | some error =>
        (.blocked 403 error,
         ⟨st.blocked_attempts ++ [(tool_calls_in_response, error)]⟩)
      | none => (.passed, st)
    else (.passed, st)

/-- The audit line printed by `async_log_success_event` (lines 103-111) for
one tool name. -/
def auditLine (tool_name : String) : String :=
  "📊 AUDIT: Tool \x27" ++ tool_name ++ "\x27 called successfully"

/-- Method `async_log_success_event`: one audit print per extracted tool name (no
state change). -/
def log_success_event_audit (r : ModelResponse) : Except String (List String) :=
  match extract_tool_calls r with
  | .error e => .error e
  | .ok names => .ok (names.map auditLine)

/-- A sequence of governance-check invocations threading the handler
state. -/
def runChecks (st : GovState) : List ModelResponse → GovState
  | [] => st
  | r :: rs => runChecks (post_call_success_hook st r).2 rs

/-! ## Helper lemmas -/

theorem firstDenied_spec :
    ∀ (names : List String) (n : String), n ∈ names → (lookupDenied n).isSome →
      ∃ d reason, firstDenied names = some d ∧ d ∈ names ∧
        lookupDenied d = some reason ∧
        validate_tools names = some (denialMsg d reason) := by
  intro names
  induction names with
  | nil => intro n hn; simp at hn
  | cons m rest ih =>
    intro n hn hd
    cases hm : lookupDenied m with
    | some reason =>
      exact ⟨m, reason, by simp [firstDenied, hm], by simp, hm,
        by simp [validate_tools, hm]⟩
    | none =>
      have hn' : n ∈ rest := by
        rcases List.mem_cons.mp hn with h | h
        · subst h; rw [hm] at hd; simp at hd
        · exact h
      obtain ⟨d, reason, h1, h2, h3, h4⟩ := ih n hn' hd
      exact ⟨d, reason, by simp [firstDenied, hm, h1],
        List.mem_cons_of_mem _ h2, h3, by simp [validate_tools, hm, h4]⟩

theorem scanLines_append_next (step : String → LineResult) :
    ∀ (pre ls : List String), (∀ l ∈ pre, step l = .next) →
      scanLines step (pre ++ ls) = scanLines step ls := by
  intro pre
  induction pre with
  | nil => intro ls _; rfl
  | cons p pre ih =>
    intro ls h
    have hp : step p = .next := h p (by simp)
    simp only [List.cons_append, scanLines, hp]
    exact ih ls (fun l hl => h l (by simp [hl]))

theorem scanLines_all_next (step : String → LineResult) :
    ∀ (ls : List String), (∀ l ∈ ls, step l = .next) →
      scanLines step ls = .fell := by
  intro ls
  induction ls with
  | nil => intro _; rfl
  | cons p ls ih =>
    intro h
    have hp : step p = .next := h p (by simp)
    simp only [scanLines, hp]
    exact ih (fun l hl => h l (by simp [hl]))

/-! ## Claims about the governance gate -/

/-- C1: whenever the extracted tool names of a model response contain a
denylisted name, `async_post_call_success_hook` raises
`HTTPException(status_code=403)` whose detail carries the rejection reason
of the first denylisted name in order of appearance, and appends the
attempt (all observed names plus that detail) to `blocked_attempts`; the
hook result is `blocked`, so no requested tool — allowlisted or not — is
released for execution. -/
theorem governance_denylisted_tool_blocks_call
    (st : GovState) (r : ModelResponse) (names : List String)
    (hx : extract_tool_calls r = .ok names)
    (n : String) (hn : n ∈ names) (hd : (lookupDenied n).isSome) :
    ∃ d reason,
      firstDenied names = some d ∧ d ∈ names ∧ lookupDenied d = some reason ∧
      post_call_success_hook st r =
        (.blocked 403 (denialMsg d reason),
         ⟨st.blocked_attempts ++ [(names, denialMsg d reason)]⟩) := by
  obtain ⟨d, reason, h1, h2, h3, h4⟩ := firstDenied_spec names n hn hd
  have hne : names ≠ [] := by intro h; subst h; simp at hn
  exact ⟨d, reason, h1, h2, h3, by simp [post_call_success_hook, hx, hne, h4]⟩

theorem governance_denylisted_tool_blocks_call_witness :
    ∃ d reason,
      firstDenied ["get_order_status", "refund_order", "get_order_status",
        "refund_order"] = some d ∧
      d ∈ ["get_order_status", "refund_order", "get_order_status",
        "refund_order"] ∧
      lookupDenied d = some reason ∧
      post_call_success_hook ⟨[]⟩
        ⟨[⟨some ⟨[⟨"function", "get_order_status"⟩,
           ⟨"function", "refund_order"⟩]⟩⟩]⟩ =
        (.blocked 403 (denialMsg d reason),
         ⟨[(["get_order_status", "refund_order", "get_order_status",
             "refund_order"], denialMsg d reason)]⟩) :=
  governance_denylisted_tool_blocks_call ⟨[]⟩
    ⟨[⟨some ⟨[⟨"function", "get_order_status"⟩,
       ⟨"function", "refund_order"⟩]⟩⟩]⟩
    ["get_order_status", "refund_order", "get_order_status", "refund_order"]
    rfl "refund_order" (by decide) (by decide)

/-- C7: the allow/deny decision of the governance check is a pure function
of the extracted tool names (two invocations with identical extracted
names yield the same `HookResult`, whatever the handler state); a blocking
invocation appends exactly one entry to `blocked_attempts`; a passing
invocation leaves the state unchanged while the success-logging hook emits
exactly one audit line per observed tool name. -/
theorem governance_decision_pure_audit_counts :
    (∀ (st st' : GovState) (r r' : ModelResponse) (names : List String),
        extract_tool_calls r = .ok names → extract_tool_calls r' = .ok names →
        (post_call_success_hook st r).1 = (post_call_success_hook st' r').1) ∧
    (∀ (st : GovState) (r : ModelResponse) (names : List String) (err : String),
        extract_tool_calls r = .ok names → validate_tools names = some err →
        (post_call_success_hook st r).2.blocked_attempts =
          st.blocked_attempts ++ [(names, err)]) ∧
    (∀ (st : GovState) (r : ModelResponse) (names : List String),
        extract_tool_calls r = .ok names → validate_tools names = none →
        (post_call_success_hook st r).2 = st ∧
        log_success_event_audit r = .ok (names.map auditLine) ∧
        (names.map auditLine).length = names.length) := by
  refine ⟨?_, ?_, ?_⟩
  · intro st st' r r' names hx hx'
    by_cases hne : names = [] <;>
      cases hv : validate_tools names <;>
      simp [post_call_success_hook, hx, hx', hne, hv]
  · intro st r names err hx hv
    have hne : names ≠ [] := by
      intro h; subst h; simp [validate_tools] at hv
    simp [post_call_success_hook, hx, hne, hv]
  · intro st r names hx hv
    refine ⟨?_, by simp [log_success_event_audit, hx], by simp⟩
    by_cases hne : names = [] <;> simp [post_call_success_hook, hx, hne, hv]

theorem governance_decision_pure_audit_counts_witness :
    (post_call_success_hook ⟨[]⟩
        ⟨[⟨some ⟨[⟨"function", "search_knowledge_base"⟩]⟩⟩]⟩).1 =
      (post_call_success_hook ⟨[(["refund_order"], "earlier")]⟩
        ⟨[⟨some ⟨[⟨"function", "search_knowledge_base"⟩]⟩⟩]⟩).1 :=
  governance_decision_pure_audit_counts.1 ⟨[]⟩ ⟨[(["refund_order"], "earlier")]⟩
    ⟨[⟨some ⟨[⟨"function", "search_knowledge_base"⟩]⟩⟩]⟩
    ⟨[⟨some ⟨[⟨"function", "search_knowledge_base"⟩]⟩⟩]⟩
    ["search_knowledge_base", "search_knowledge_base"] rfl rfl

/-- C8: `blocked_attempts` is append-only — each hook invocation extends it
by a (possibly empty) tail, and so does any sequence of invocations — and
the log is never consulted for the decision: the `HookResult` computed from
any state equals the one computed from the empty log. -/
theorem audit_log_append_only_not_consulted :
    (∀ (st : GovState) (r : ModelResponse), ∃ tail,
        (post_call_success_hook st r).2.blocked_attempts =
          st.blocked_attempts ++ tail) ∧
    (∀ (rs : List ModelResponse) (st : GovState), ∃ tail,
        (runChecks st rs).blocked_attempts = st.blocked_attempts ++ tail) ∧
    (∀ (st : GovState) (r : ModelResponse),
        (post_call_success_hook st r).1 = (post_call_success_hook ⟨[]⟩ r).1) := by
  have step : ∀ (st : GovState) (r : ModelResponse), ∃ tail,
      (post_call_success_hook st r).2.blocked_attempts =
        st.blocked_attempts ++ tail := by
    intro st r
    cases hx : extract_tool_calls r with
    | error e => exact ⟨[], by simp [post_call_success_hook, hx]⟩
    | ok names =>
      by_cases hne : names = []
      · exact ⟨[], by simp [post_call_success_hook, hx, hne]⟩
      · cases hv : validate_tools names with
        | none => exact ⟨[], by simp [post_call_success_hook, hx, hne, hv]⟩
        | some err =>
          exact ⟨[(names, err)], by simp [post_call_success_hook, hx, hne, hv]⟩
  refine ⟨step, ?_, ?_⟩
  · intro rs
    induction rs with
    | nil => intro st; exact ⟨[], by simp [runChecks]⟩
    | cons r rs ih =>
      intro st
      obtain ⟨t1, h1⟩ := step st r
      obtain ⟨t2, h2⟩ := ih (post_call_success_hook st r).2
      exact ⟨t1 ++ t2, by simp [runChecks, h2, h1]⟩
  · intro st r
    cases hx : extract_tool_calls r with
    | error e => simp [post_call_success_hook, hx]
    | ok names =>
      by_cases hne : names = [] <;>
        cases hv : validate_tools names <;>
        simp [post_call_success_hook, hx, hne, hv]

/-- C9: `_extract_tool_calls` runs two passes over
`choices[0].message.tool_calls` — the first appends every tool call's name,
the second appends again the names of the calls whose `type` is
`"function"` — so the extraction is the concatenation of the two passes and
every function-typed tool call's name occurs at least twice in it. -/
theorem extract_tool_calls_two_passes
    (r : ModelResponse) (c : Choice) (rest : List Choice) (m : Message)
    (hc : r.choices = c :: rest) (hm : c.message = some m) :
    extract_tool_calls r =
      .ok (m.tool_calls.map ToolCall.name ++
        (m.tool_calls.filter (fun tc => tc.type = "function")).map ToolCall.name) ∧
    ∀ tc ∈ m.tool_calls, tc.type = "function" →
      2 ≤ (m.tool_calls.map ToolCall.name ++
        (m.tool_calls.filter (fun tc => tc.type = "function")).map
          ToolCall.name).count tc.name := by
  constructor
  · simp [extract_tool_calls, hc, hm]
  · intro tc htc hty
    rw [List.count_append]
    have h1 : 0 < (m.tool_calls.map ToolCall.name).count tc.name := by
      rw [List.count_pos_iff]
      exact List.mem_map_of_mem ToolCall.name htc
    have h2 : 0 <
        ((m.tool_calls.filter (fun tc => tc.type = "function")).map
          ToolCall.name).count tc.name := by
      rw [List.count_pos_iff]
      exact List.mem_map_of_mem ToolCall.name
        (List.mem_filter.mpr ⟨htc, by simp [hty]⟩)
    omega

theorem extract_tool_calls_two_passes_witness :
    extract_tool_calls
      ⟨[⟨some ⟨[⟨"function", "get_order_status"⟩,
         ⟨"function", "refund_order"⟩]⟩⟩]⟩ =
      .ok ["get_order_status", "refund_order", "get_order_status",
        "refund_order"] ∧
    2 ≤ (["get_order_status", "refund_order", "get_order_status",
        "refund_order"] : List String).count "refund_order" :=
  ⟨(extract_tool_calls_two_passes
      ⟨[⟨some ⟨[⟨"function", "get_order_status"⟩,
         ⟨"function", "refund_order"⟩]⟩⟩]⟩
      ⟨some ⟨[⟨"function", "get_order_status"⟩, ⟨"function", "refund_order"⟩]⟩⟩
      [] ⟨[⟨"function", "get_order_status"⟩, ⟨"function", "refund_order"⟩]⟩
      rfl rfl).1,
   (extract_tool_calls_two_passes
      ⟨[⟨some ⟨[⟨"function", "get_order_status"⟩,
         ⟨"function", "refund_order"⟩]⟩⟩]⟩
      ⟨some ⟨[⟨"function", "get_order_status"⟩, ⟨"function", "refund_order"⟩]⟩⟩
      [] ⟨[⟨"function", "get_order_status"⟩, ⟨"function", "refund_order"⟩]⟩
      rfl rfl).2 ⟨"function", "refund_order"⟩ (by decide) rfl⟩

/-! ## Claims about the tool-call bridge -/

/-- C4: on `subprocess.TimeoutExpired` the bridge executes `process.kill()`
(no subprocess remains running) and returns
`\x7b"success": False, "message": "MCP server call timed out"\x7d`, whose
message contains the substring `"timed out"`. -/
theorem bridge_timeout_kills_and_reports :
    (∀ (t : String) (a : List (String × Json)),
        call_mcp_tool t a .timeout =
          ⟨errResult "MCP server call timed out", true⟩) ∧
    strContains "MCP server call timed out" "timed out" = true :=
  ⟨fun _ _ => rfl, by decide⟩

/-- C5: `call_mcp_tool` is a total function of the exchange outcome — every
outcome yields exactly one returned dictionary, never a propagated
exception.  A non-timeout exception raised by the exchange itself, and
likewise any non-`JSONDecodeError` exception raised while scanning the
captured output, is converted by the outer handler into
`\x7b"success": False, "message": "Error calling MCP server: " + str(e)\x7d`. -/
theorem bridge_catches_exceptions_totally :
    (∀ (t : String) (a : List (String × Json)) (desc : String),
        call_mcp_tool t a (.exnFailure desc) =
          ⟨errResult ("Error calling MCP server: " ++ desc), false⟩) ∧
    (∀ (t : String) (a : List (String × Json)) (stdout stderr : String)
        (e : PyExn),
        stdout ≠ "" →
        scanLines processLine (pySplitNl (pyStrip stdout)) = .raised e →
        call_mcp_tool t a (.completed stdout stderr) =
          ⟨errResult ("Error calling MCP server: " ++ pyExnStr e), false⟩) := by
  refine ⟨fun _ _ _ => rfl, ?_⟩
  intro t a stdout stderr e hne hscan
  simp [call_mcp_tool, runCompleted, hne, hscan]

theorem bridge_catches_exceptions_totally_witness :
    call_mcp_tool "read_data" [] (.completed "5" "") =
      ⟨errResult
        "Error calling MCP server: argument of type \x27int\x27 is not iterable",
       false⟩ :=
  bridge_catches_exceptions_totally.2 "read_data" [] "5" ""
    (.typeError "argument of type \x27int\x27 is not iterable")
    (by decide) (by decide)

/-- C2 counterexample.  The claim says unparsable lines are skipped, the
return value derives from the first parsed line containing a `result` key,
and that with no such line the call returns the no-valid-response failure.
Both parts fail on the code:

  * `stdout = "5"` parses, contains no `result` key, and the claim predicts
    the no-valid-response failure; but `"result" in 5` raises `TypeError`,
    which is not `json.JSONDecodeError`, so the outer handler returns the
    generic error result instead (first two conjuncts);
  * two stdouts whose first `result`-bearing line is identical (its inner
    `content[0].text` is not valid JSON, so the inner `json.loads` raises
    `JSONDecodeError` and the loop silently moves on) produce different
    results, taken from their second `result`-bearing lines — so the value
    does not derive from the first `result`-bearing line (last two
    conjuncts). -/
theorem scan_nonobject_line_counterexample :
    (call_mcp_tool "t" [] (.completed "5" "")).response =
      errResult
        "Error calling MCP server: argument of type \x27int\x27 is not iterable" ∧
    errResult
        "Error calling MCP server: argument of type \x27int\x27 is not iterable" ≠
      errResult "No valid response from MCP server" ∧
    (call_mcp_tool "t" []
      (.completed
        "\x7b\"result\":\x7b\"content\":[\x7b\"text\":\"oops\"\x7d]\x7d\x7d\n\x7b\"result\":\x7b\"ok\":true\x7d\x7d"
        "")).response = .obj [("ok", .bool true)] ∧
    (call_mcp_tool "t" []
      (.completed
        "\x7b\"result\":\x7b\"content\":[\x7b\"text\":\"oops\"\x7d]\x7d\x7d\n\x7b\"result\":\x7b\"ok\":false\x7d\x7d"
        "")).response = .obj [("ok", .bool false)] := by
  refine ⟨by decide, by decide, by decide, by decide⟩

/-- C2 (amended): `call_mcp_tool` scans the stripped standard-output text
line by line; empty output yields the no-valid-response failure.  Skipped
lines are: lines that fail to parse as JSON; lines parsing to JSON objects
without a `result` key, to JSON arrays without a `"result"` element, or to
JSON strings without a `"result"` substring (on these three types the
membership test `"result" in response` is an ordinary containment check);
and `result`-bearing lines whose inner `content[0].text` fails to parse as
JSON.  The return value derives from the first line whose loop body
returns; if every line is skipped the call returns
`\x7b"success": False, "message": "No valid response from MCP server"\x7d`.
Lines parsing to a JSON number, boolean, or null are not skipped: on them
the membership test itself raises `TypeError`; that — like any other
non-`JSONDecodeError` exception escaping the loop body, e.g. the indexing
`TypeError` on an array or string that does pass the membership test — is
converted by the outer handler into the generic error result, aborting the
scan at that line (last conjunct).
(Amendments forced by the counterexample: number/boolean/null lines abort
the scan instead of being skipped, and a `result`-bearing line with
unparsable inner text is skipped, so the deriving line is the first
*usable* one, not the first `result`-bearing one.) -/
theorem scan_skips_and_extracts_amended :
    (∀ (t : String) (a : List (String × Json)) (stderr : String),
        (call_mcp_tool t a (.completed "" stderr)).response =
          errResult "No valid response from MCP server") ∧
    (∀ (t : String) (a : List (String × Json)) (stdout stderr : String)
        (pre post : List String) (line : String) (v : Json),
        stdout ≠ "" →
        pySplitNl (pyStrip stdout) = pre ++ line :: post →
        (∀ l ∈ pre, processLine l = .next) →
        processLine line = .ret v →
        (call_mcp_tool t a (.completed stdout stderr)).response = v) ∧
    (∀ (t : String) (a : List (String × Json)) (stdout stderr : String),
        stdout ≠ "" →
        (∀ l ∈ pySplitNl (pyStrip stdout), processLine l = .next) →
        (call_mcp_tool t a (.completed stdout stderr)).response =
          errResult "No valid response from MCP server") ∧
    (∀ l : String, json_loads l = none → processLine l = .next) ∧
    (∀ (l : String) (fs : List (String × Json)),
        json_loads l = some (.obj fs) → pyLookup fs "result" = none →
        processLine l = .next) ∧
    (∀ (l : String) (xs : List Json),
        json_loads l = some (.arr xs) → Json.str "result" ∉ xs →
        processLine l = .next) ∧
    (∀ (l s : String),
        json_loads l = some (.str s) → strContains s "result" = false →
        processLine l = .next) ∧
    (∀ (l : String) (n : Int),
        json_loads l = some (.num n) →
        processLine l =
          .exn (.typeError "argument of type \x27int\x27 is not iterable")) ∧
    (∀ (l : String) (b : Bool),
        json_loads l = some (.bool b) →
        processLine l =
          .exn (.typeError "argument of type \x27bool\x27 is not iterable")) ∧
    (∀ l : String,
        json_loads l = some .null →
        processLine l =
          .exn (.typeError
            "argument of type \x27NoneType\x27 is not iterable")) ∧
    (∀ (t : String) (a : List (String × Json)) (stdout stderr : String)
        (pre post : List String) (line : String) (e : PyExn),
        stdout ≠ "" →
        pySplitNl (pyStrip stdout) = pre ++ line :: post →
        (∀ l ∈ pre, processLine l = .next) →
        processLine line = .exn e →
        (call_mcp_tool t a (.completed stdout stderr)).response =
          errResult ("Error calling MCP server: " ++ pyExnStr e)) := by
  refine ⟨fun t a stderr => rfl, ?_, ?_, ?_, ?_, ?_, ?_, ?_, ?_, ?_, ?_⟩
  · intro t a stdout stderr pre post line v hne hsplit hpre hline
    simp only [call_mcp_tool, runCompleted, if_neg hne, hsplit,
      scanLines_append_next processLine pre (line :: post) hpre,
      scanLines, hline]
  · intro t a stdout stderr hne hall
    simp only [call_mcp_tool, runCompleted, if_neg hne,
      scanLines_all_next processLine _ hall]
  · intro l hl
    simp [processLine, processLineCore, hl]
  · intro l fs hl hfs
    simp [processLine, processLineCore, hl, pyContains, hfs]
  · intro l xs hl hx
    simp [processLine, processLineCore, hl, pyContains, hx]
  · intro l s hl hs
    simp [processLine, processLineCore, hl, pyContains, hs]
  · intro l n hl
    simp [processLine, processLineCore, hl, pyContains, pyTypeName]
  · intro l b hl
    simp [processLine, processLineCore, hl, pyContains, pyTypeName]
  · intro l hl
    simp [processLine, processLineCore, hl, pyContains, pyTypeName]
  · intro t a stdout stderr pre post line e hne hsplit hpre hline
    simp only [call_mcp_tool, runCompleted, if_neg hne, hsplit,
      scanLines_append_next processLine pre (line :: post) hpre,
      scanLines, hline]

/-- Witness: the spec's own malformed-line-robustness example — a non-JSON
diagnostic line followed by the JSON-RPC response line with a
double-encoded payload. -/
theorem scan_skips_and_extracts_amended_witness :
    (call_mcp_tool "read_data" []
      (.completed
        "log: connecting\n\x7b\"jsonrpc\":\"2.0\",\"id\":1,\"result\":\x7b\"content\":[\x7b\"text\":\"\x7b\\\"success\\\":true,\\\"data\\\":[]\x7d\"\x7d]\x7d\x7d"
        "")).response =
      .obj [("success", .bool true), ("data", .arr [])] :=
  scan_skips_and_extracts_amended.2.1 "read_data" []
    "log: connecting\n\x7b\"jsonrpc\":\"2.0\",\"id\":1,\"result\":\x7b\"content\":[\x7b\"text\":\"\x7b\\\"success\\\":true,\\\"data\\\":[]\x7d\"\x7d]\x7d\x7d"
    "" ["log: connecting"] []
    "\x7b\"jsonrpc\":\"2.0\",\"id\":1,\"result\":\x7b\"content\":[\x7b\"text\":\"\x7b\\\"success\\\":true,\\\"data\\\":[]\x7d\"\x7d]\x7d\x7d"
    (.obj [("success", .bool true), ("data", .arr [])])
    (by decide) (by decide) (by decide) (by decide)

/-- C3 counterexample.  The claim says a `result` whose `content` array's
first element lacks a `text` field makes `invoke` return the `result`
object itself.  On the code, `.get("text", "\x7b\x7d")` substitutes the
default string and the call returns the decoded empty object `\x7b\x7d` —
not the result object. -/
theorem unwrap_missing_text_counterexample :
    (call_mcp_tool "t" []
      (.completed "\x7b\"result\":\x7b\"content\":[\x7b\"x\":1\x7d]\x7d\x7d" "")).response =
      .obj [] ∧
    Json.obj [] ≠ .obj [("content", .arr [.obj [("x", .num 1)]])] := by
  refine ⟨by decide, by decide⟩

/-- C3 (amended): for a single response line parsing to an object whose
`result` field is an object: if `result` has no `content` key, or its
`content` is the empty array, the call returns the `result` object itself;
if `content` is non-empty and its first element is an object with a `text`
field holding a string that parses as JSON, the call returns that decoded
inner document (no field loss: the decoded value is returned as-is); if the
first element is an object without a `text` field, the call returns the
empty object decoded from the substituted default `"\x7b\x7d"` (this last
case is the amendment forced by the counterexample). -/
theorem unwrap_result_cases_amended :
    ∀ (t : String) (a : List (String × Json)) (stdout stderr line : String)
      (fs rfs : List (String × Json)),
      stdout ≠ "" →
      pySplitNl (pyStrip stdout) = [line] →
      json_loads line = some (.obj fs) →
      pyLookup fs "result" = some (.obj rfs) →
      (pyLookup rfs "content" = none →
        (call_mcp_tool t a (.completed stdout stderr)).response = .obj rfs) ∧
      (pyLookup rfs "content" = some (.arr []) →
        (call_mcp_tool t a (.completed stdout stderr)).response = .obj rfs) ∧
      (∀ (e : Json) (es : List Json) (efs : List (String × Json)),
        pyLookup rfs "content" = some (.arr (e :: es)) → e = .obj efs →
        (∀ (t2 : String) (d : Json),
          pyLookup efs "text" = some (.str t2) → json_loads t2 = some d →
          (call_mcp_tool t a (.completed stdout stderr)).response = d) ∧
        (pyLookup efs "text" = none →
          (call_mcp_tool t a (.completed stdout stderr)).response = .obj [])) := by
  intro t a stdout stderr line fs rfs hne hsplit hl hr
  have hb : json_loads "\x7b\x7d" = some (Json.obj []) := by decide
  refine ⟨?_, ?_, ?_⟩
  · intro hc
    simp [call_mcp_tool, runCompleted, hne, hsplit, scanLines, processLine,
      processLineCore, hl, pyContains, pyIndexStr, hr, hc]
  · intro hc
    simp [call_mcp_tool, runCompleted, hne, hsplit, scanLines, processLine,
      processLineCore, hl, pyContains, pyIndexStr, pyLen, hr, hc]
  · intro e es efs hc he
    subst he
    constructor
    · intro t2 d ht hd
      simp [call_mcp_tool, runCompleted, hne, hsplit, scanLines, processLine,
        processLineCore, hl, pyContains, pyIndexStr, pyLen, pyIndexZero,
        pyGet, hr, hc, ht, hd]
    · intro ht
      simp [call_mcp_tool, runCompleted, hne, hsplit, scanLines, processLine,
        processLineCore, hl, pyContains, pyIndexStr, pyLen, pyIndexZero,
        pyGet, hr, hc, ht, hb]

/-- Witness: a double-encoded success payload is decoded and returned with
all fields intact. -/
theorem unwrap_result_cases_amended_witness :
    (call_mcp_tool "read_data" []
      (.completed
        "\x7b\"result\":\x7b\"content\":[\x7b\"text\":\"\x7b\\\"success\\\":true,\\\"message\\\":\\\"ok\\\"\x7d\"\x7d]\x7d\x7d"
        "")).response =
      .obj [("success", .bool true), ("message", .str "ok")] :=
  ((unwrap_result_cases_amended "read_data" []
      "\x7b\"result\":\x7b\"content\":[\x7b\"text\":\"\x7b\\\"success\\\":true,\\\"message\\\":\\\"ok\\\"\x7d\"\x7d]\x7d\x7d"
      ""
      "\x7b\"result\":\x7b\"content\":[\x7b\"text\":\"\x7b\\\"success\\\":true,\\\"message\\\":\\\"ok\\\"\x7d\"\x7d]\x7d\x7d"
      [("result",
        .obj [("content",
          .arr [.obj [("text",
            .str "\x7b\"success\":true,\"message\":\"ok\"\x7d")]])])]
      [("content",
        .arr [.obj [("text", .str "\x7b\"success\":true,\"message\":\"ok\"\x7d")]])]
      (by decide) (by decide) (by decide) (by decide)).2.2
    (.obj [("text", .str "\x7b\"success\":true,\"message\":\"ok\"\x7d")]) []
    [("text", .str "\x7b\"success\":true,\"message\":\"ok\"\x7d")]
    (by decide) rfl).1
    "\x7b\"success\":true,\"message\":\"ok\"\x7d"
    (.obj [("success", .bool true), ("message", .str "ok")])
    (by decide) (by decide)

/-- A decoded inner document on which the test copy's diagnostic printing
cannot raise: a JSON object whose `data` field is absent, falsy, or
sliceable (array or string). -/
def innerTame (d : Json) : Bool :=
  match d with
  | .obj fs =>
    match pyLookup fs "data" with
    | none => true
    | some dv =>
      !pyTruthy dv ||
        (match dv with
         | .arr _ => true
         | .str _ => true
         | _ => false)
  | _ => false

def lineTame (l : String) : Bool :=
  match processLineCore l with
  | .retDecoded d => innerTame d
  | _ => true

def outcomeTame : ExchangeOutcome → Bool
  | .completed stdout _ => (pySplitNl (pyStrip stdout)).all lineTame
  | _ => true

/-- C10 counterexample.  The two copies of `call_mcp_tool` are not
observationally equivalent: when the double-encoded inner document is not
a dict (here, the JSON number `7`), the agent copy returns it, while the
test copy's diagnostic `result.get("success")` raises `AttributeError`,
which the outer handler converts to the generic error result. -/
theorem bridge_copies_divergence_counterexample :
    (call_mcp_tool "t" []
      (.completed "\x7b\"result\":\x7b\"content\":[\x7b\"text\":\"7\"\x7d]\x7d\x7d" "")).response =
      .num 7 ∧
    (call_mcp_tool_test "t" []
      (.completed "\x7b\"result\":\x7b\"content\":[\x7b\"text\":\"7\"\x7d]\x7d\x7d" "")).response =
      errResult
        "Error calling MCP server: \x27int\x27 object has no attribute \x27get\x27" ∧
    call_mcp_tool "t" []
      (.completed "\x7b\"result\":\x7b\"content\":[\x7b\"text\":\"7\"\x7d]\x7d\x7d" "") ≠
    call_mcp_tool_test "t" []
      (.completed "\x7b\"result\":\x7b\"content\":[\x7b\"text\":\"7\"\x7d]\x7d\x7d" "") := by
  refine ⟨by decide, by decide, by decide⟩

/-- C10 (amended): the two copies build identical request envelopes and
write identical request lines, and they return identical results on every
timeout or exception outcome and on every completed outcome whose decoded
inner documents are "tame" (JSON objects whose `data` field, if truthy, is
an array or string).  The amendment forced by the counterexample: on an
inner document that is not an object — or whose truthy `data` is not
sliceable — the test copy's diagnostic printing raises and produces the
generic error result where the agent copy returns the decoded document. -/
theorem processLineTest_eq_of_tame (l : String) (hl : lineTame l = true) :
    processLineTest l = processLine l := by
  unfold lineTame at hl
  unfold processLineTest processLine
  cases hc : processLineCore l with
  | next => rfl
  | retResult v => rfl
  | exn e => rfl
  | retDecoded d =>
    rw [hc] at hl
    simp only at hl
    show testInnerWrap d = .ret d
    cases d with
    | obj fs =>
      simp only [innerTame] at hl
      cases hd : pyLookup fs "data" with
      | none => simp [testInnerWrap, hd, pyTruthy]
      | some dv =>
        rw [hd] at hl
        simp only [Bool.or_eq_true] at hl
        rcases hl with hl | hl
        · have hf : pyTruthy dv = false := by simpa using hl
          simp [testInnerWrap, hd, hf]
        · cases dv
          case arr xs =>
            by_cases ht : pyTruthy (Json.arr xs) = true <;>
              simp [testInnerWrap, hd, pySliceTwo, ht]
          case str s =>
            by_cases ht : pyTruthy (Json.str s) = true <;>
              simp [testInnerWrap, hd, pySliceTwo, ht]
          all_goals simp at hl
    | null => simp [innerTame] at hl
    | bool b => simp [innerTame] at hl
    | num n => simp [innerTame] at hl
    | str s => simp [innerTame] at hl
    | arr xs => simp [innerTame] at hl

theorem scanLines_test_eq_of_tame :
    ∀ ls : List String, (∀ l ∈ ls, lineTame l = true) →
      scanLines processLineTest ls = scanLines processLine ls := by
  intro ls
  induction ls with
  | nil => intro _; rfl
  | cons l ls ih =>
    intro h
    have h1 : processLineTest l = processLine l :=
      processLineTest_eq_of_tame l (h l (by simp))
    simp only [scanLines, h1]
    cases processLine l with
    | ret v => rfl
    | exn e => rfl
    | next => exact ih (fun x hx => h x (by simp [hx]))

theorem bridge_copies_equiv_amended :
    (∀ (t : String) (a : List (String × Json)),
        test_buildRequest t a = buildRequest t a ∧
        test_writtenInput t a = writtenInput t a) ∧
    (∀ (t : String) (a : List (String × Json)) (o : ExchangeOutcome),
        outcomeTame o = true →
        call_mcp_tool_test t a o = call_mcp_tool t a o) := by
  refine ⟨fun t a => ⟨rfl, rfl⟩, ?_⟩
  intro t a o ho
  cases o with
  | timeout => rfl
  | exnFailure desc => rfl
  | completed stdout stderr =>
    unfold outcomeTame at ho
    rw [List.all_eq_true] at ho
    have hscan := scanLines_test_eq_of_tame (pySplitNl (pyStrip stdout)) ho
    unfold call_mcp_tool_test call_mcp_tool
    by_cases hne : stdout = ""
    · simp [runCompleted, hne]
    · simp [runCompleted, hne, hscan]

/-- Witness: on a tame completed outcome (inner `data` is an array) the two
copies agree. -/
theorem bridge_copies_equiv_amended_witness :
    outcomeTame
      (.completed
        "log: x\n\x7b\"result\":\x7b\"content\":[\x7b\"text\":\"\x7b\\\"success\\\":true,\\\"data\\\":[\x7b\\\"order_id\\\":\\\"ORD-00051\\\"\x7d]\x7d\"\x7d]\x7d\x7d"
        "") = true ∧
    call_mcp_tool_test "read_data" []
      (.completed
        "log: x\n\x7b\"result\":\x7b\"content\":[\x7b\"text\":\"\x7b\\\"success\\\":true,\\\"data\\\":[\x7b\\\"order_id\\\":\\\"ORD-00051\\\"\x7d]\x7d\"\x7d]\x7d\x7d"
        "") =
    call_mcp_tool "read_data" []
      (.completed
        "log: x\n\x7b\"result\":\x7b\"content\":[\x7b\"text\":\"\x7b\\\"success\\\":true,\\\"data\\\":[\x7b\\\"order_id\\\":\\\"ORD-00051\\\"\x7d]\x7d\"\x7d]\x7d\x7d"
        "") :=
  ⟨by decide,
   bridge_copies_equiv_amended.2 "read_data" []
     (.completed
       "log: x\n\x7b\"result\":\x7b\"content\":[\x7b\"text\":\"\x7b\\\"success\\\":true,\\\"data\\\":[\x7b\\\"order_id\\\":\\\"ORD-00051\\\"\x7d]\x7d\"\x7d]\x7d\x7d"
       "") (by decide)⟩

/-! ## The request envelope (C6) -/

theorem escapeChar_no_nl (c : Char) : '\n' ∉ (escapeChar c).data := by
  unfold escapeChar
  split_ifs with h1 h2 h3 h4 h5 h6 h7 h8
  · decide
  · decide
  · decide
  · decide
  · decide
  · decide
  · decide
  · have hk : c.toNat / 16 < 2 := by omega
    have hl : c.toNat % 16 < 16 := Nat.mod_lt _ (by norm_num)
    simp only [String.data_append]
    intro hmem
    rcases List.mem_append.mp hmem with hmem | hmem
    · rcases List.mem_append.mp hmem with hmem | hmem
      · simp at hmem
      · generalize c.toNat / 16 = k at hk hmem
        interval_cases k <;> simp_all [hexDigit, String.singleton]
    · generalize c.toNat % 16 = k at hl hmem
      interval_cases k <;> simp_all [hexDigit, String.singleton]
  · intro hmem
    simp [String.singleton] at hmem
    exact h3 hmem.symm

theorem escapeList_no_nl : ∀ cs : List Char, '\n' ∉ (escapeList cs).data := by
  intro cs
  induction cs with
  | nil => simp [escapeList]
  | cons c cs ih =>
    simp only [escapeList, String.data_append, List.mem_append]
    rintro (h | h)
    · exact escapeChar_no_nl c h
    · exact ih h

theorem dumpString_no_nl (s : String) : '\n' ∉ (dumpString s).data := by
  simp only [dumpString, String.data_append, List.mem_append]
  rintro ((h | h) | h)
  · simp at h
  · exact escapeList_no_nl s.data h
  · simp at h

theorem natDigits_no_nl : ∀ (fuel n : Nat), '\n' ∉ (natDigits fuel n).data := by
  intro fuel
  induction fuel with
  | zero => intro n; simp [natDigits]
  | succ fuel ih =>
    intro n
    unfold natDigits
    split_ifs with h
    · intro hmem
      simp [String.singleton] at hmem
      have h10 : (10 : Nat) = 48 + n → False := by omega
      generalize n = m at h hmem
      interval_cases m <;> simp_all
    · simp only [String.data_append, List.mem_append]
      rintro (hmem | hmem)
      · exact ih (n / 10) hmem
      · have hl : n % 10 < 10 := Nat.mod_lt _ (by norm_num)
        simp [String.singleton] at hmem
        generalize n % 10 = m at hl hmem
        interval_cases m <;> simp_all

theorem intRepr_no_nl (n : Int) : '\n' ∉ (intRepr n).data := by
  unfold intRepr
  split_ifs with h
  · simp only [String.data_append, List.mem_append]
    rintro (hmem | hmem)
    · simp at hmem
    · exact natDigits_no_nl _ _ hmem
  · exact natDigits_no_nl _ _

theorem json_dumps_no_nl_aux :
    ∀ n : Nat,
      (∀ j : Json, sizeOf j ≤ n → '\n' ∉ (json_dumps j).data) ∧
      (∀ xs : List Json, sizeOf xs ≤ n → '\n' ∉ (dumpsElems xs).data) ∧
      (∀ fs : List (String × Json), sizeOf fs ≤ n →
        '\n' ∉ (dumpsFields fs).data) := by
  intro n
  induction n with
  | zero =>
    refine ⟨fun j h => ?_, fun xs h => ?_, fun fs h => ?_⟩
    · cases j <;> simp_all
    · cases xs <;> simp_all
    · cases fs <;> simp_all
  | succ n ih =>
    obtain ⟨ihj, ihl, ihf⟩ := ih
    refine ⟨fun j h => ?_, fun xs h => ?_, fun fs h => ?_⟩
    · cases j with
      | null => simp [json_dumps]
      | bool b => cases b <;> simp [json_dumps]
      | num m => exact intRepr_no_nl m
      | str s => exact dumpString_no_nl s
      | arr xs =>
        have hx : sizeOf xs ≤ n := by
          simp only [Json.arr.sizeOf_spec] at h; omega
        simp only [json_dumps, String.data_append, List.mem_append]
        rintro ((hmem | hmem) | hmem)
        · simp at hmem
        · exact ihl xs hx hmem
        · simp at hmem
      | obj fs =>
        have hx : sizeOf fs ≤ n := by
          simp only [Json.obj.sizeOf_spec] at h; omega
        simp only [json_dumps, String.data_append, List.mem_append]
        rintro ((hmem | hmem) | hmem)
        · simp [String.singleton, lbrace] at hmem
        · exact ihf fs hx hmem
        · simp [String.singleton, rbrace] at hmem
    · cases xs with
      | nil => simp [dumpsElems]
      | cons x xs =>
        have h1 : sizeOf x ≤ n := by
          simp only [List.cons.sizeOf_spec] at h; omega
        have h2 : sizeOf xs ≤ n := by
          simp only [List.cons.sizeOf_spec] at h; omega
        cases xs with
        | nil => exact fun hmem => ihj x h1 hmem
        | cons y ys =>
          simp only [dumpsElems, String.data_append, List.mem_append]
          rintro ((hmem | hmem) | hmem)
          · exact ihj x h1 hmem
          · simp at hmem
          · exact ihl (y :: ys) h2 hmem
    · cases fs with
      | nil => simp [dumpsFields]
      | cons f fs =>
        obtain ⟨k, v⟩ := f
        have h1 : sizeOf v ≤ n := by
          simp only [List.cons.sizeOf_spec, Prod.mk.sizeOf_spec] at h; omega
        have h2 : sizeOf fs ≤ n := by
          simp only [List.cons.sizeOf_spec, Prod.mk.sizeOf_spec] at h; omega
        cases fs with
        | nil =>
          simp only [dumpsFields, String.data_append, List.mem_append]
          rintro ((hmem | hmem) | hmem)
          · exact dumpString_no_nl k hmem
          · simp at hmem
          · exact ihj v h1 hmem
        | cons g gs =>
          simp only [dumpsFields, String.data_append, List.mem_append]
          rintro ((((hmem | hmem) | hmem) | hmem) | hmem)
          · exact dumpString_no_nl k hmem
          · simp at hmem
          · exact ihj v h1 hmem
          · simp at hmem
          · exact ihf (g :: gs) h2 hmem

theorem json_dumps_no_nl (j : Json) : '\n' ∉ (json_dumps j).data :=
  (json_dumps_no_nl_aux (sizeOf j)).1 j le_rfl

/-- C6: for every operation name and arguments mapping, the text written to
the subprocess's standard input is the serialized request envelope followed
by a single newline; the envelope is the JSON object
`\x7b"jsonrpc": "2.0", "id": 1, "method": "tools/call",
"params": \x7b"name": operation, "arguments": arguments\x7d\x7d` (version
tag `"2.0"`, constant correlation id `1`, method fixed to `"tools/call"`,
params carrying the caller's operation name and arguments unchanged); the
serialized envelope contains no newline character, so the request is
exactly one line.  The last conjunct shows the full concrete line for the
end-to-end example operation. -/
theorem request_envelope_single_line :
    ∀ (t : String) (a : List (String × Json)),
      writtenInput t a = json_dumps (buildRequest t a) ++ "\n" ∧
      buildRequest t a =
        .obj [("jsonrpc", .str "2.0"), ("id", .num 1),
              ("method", .str "tools/call"),
              ("params", .obj [("name", .str t), ("arguments", .obj a)])] ∧
      (json_dumps (buildRequest t a)).data.count '\n' = 0 ∧
      writtenInput "read_data" [("query", .str "SELECT 1")] =
        "\x7b\"jsonrpc\": \"2.0\", \"id\": 1, \"method\": \"tools/call\", \"params\": \x7b\"name\": \"read_data\", \"arguments\": \x7b\"query\": \"SELECT 1\"\x7d\x7d\x7d\n" := by
  intro t a
  refine ⟨rfl, rfl, ?_, by decide⟩
  rw [List.count_eq_zero]
  exact json_dumps_no_nl (buildRequest t a)
